import Mathlib

/-!
Verification development for the Chronolens backend
(`functions/src/index.ts`): a shallow embedding of the quota tracker,
the render request handler, the publish handler and the access-control
checks, together with theorems about their behaviour.

Conventions of the embedding:
* Firestore documents are plain structures; absent fields are `Option`.
* JavaScript falsy-string defaulting (`s || d`) is modelled explicitly
  (`""` counts as absent, see `truthy`).
* A Firestore transaction that throws leaves the stored document
  unchanged; `chargeQuotaPost` reflects that abort semantics.
* External effects (object storage, the generative model, hashing and
  image re-encoding) are supplied as components of an environment
  record; the handler itself is a pure function of that environment.
-/

set_option maxHeartbeats 1000000

namespace Chronolens

/-- Error codes of `HttpsError` as used in `functions/src/index.ts`. -/
inductive ErrCode where
  | unauthenticated
  | invalidArgument
  | notFound
  | permissionDenied
  | failedPrecondition
  | resourceExhausted
  | internal
deriving DecidableEq

/-- An `HttpsError`: a gRPC-style code together with its message. -/
structure Err where
  code : ErrCode
  msg : String
deriving DecidableEq

deriving instance DecidableEq for Except

/-! ### Small string helpers mirroring the JavaScript string operations -/

/-- `value.trim() === ""`: every character is whitespace. -/
def isBlank (s : String) : Bool := s.data.all Char.isWhitespace

/-- JS falsy-string coalescing: `some s` survives only when `s` is
nonempty, mirroring `!!s` on an optional string field. -/
def truthy : Option String → Option String
  | none => none
  | some s => if s = "" then none else some s

/-- One step of collapsing duplicate slashes (`.replace(/\/+/g, "/")`). -/
def collapseStep (c : Char) (acc : List Char) : List Char :=
  match acc with
  | d :: tl => if c = '/' ∧ d = '/' then d :: tl else c :: d :: tl
  | [] => [c]

/-- `.replace(/\/+/g, "/")`: collapse every run of slashes to one. -/
def collapseSlashes (s : String) : String := ⟨s.data.foldr collapseStep []⟩

/-- `joinPath` (index.ts line 68): drop falsy parts, join with `/`,
collapse duplicate slashes. -/
def joinPath (parts : List String) : String :=
  collapseSlashes (String.intercalate "/" (parts.filter (· ≠ "")))

/-- `gsUri.split("/")` specialised to the slash separator. -/
def splitSlashAux : List Char → List Char → List String
  | [], cur => [⟨cur.reverse⟩]
  | c :: rest, cur =>
    if c = '/' then ⟨cur.reverse⟩ :: splitSlashAux rest []
    else splitSlashAux rest (c :: cur)

/-- `s.split("/")` as a list of chunks. -/
def splitSlash (s : String) : List String := splitSlashAux s.data []

/-- `gsUri.startsWith("gs://")`. -/
def startsWithGs (s : String) : Bool := ['g', 's', ':', '/', '/'].isPrefixOf s.data

/-- `gsPathFromUri` (index.ts lines 60–66): extract the object path from
a `gs://bucket/path` URI; a bare path passes through; empty results are
`none`. -/
def gsPathFromUri (gsUri : String) : Option String :=
  if gsUri = "" then none
  else if startsWithGs gsUri = false then some gsUri
  else
    let path := String.intercalate "/" ((splitSlash gsUri).drop 3)
    if path = "" then none else some path

/-! ### Enumerations -/

/-- The active era enumeration (index.ts line 287). -/
def ERAS : List String :=
  ["1890", "1920", "1940", "1970", "1980", "1990", "2000", "2010", "2090"]

/-- The active variant enumeration (index.ts line 290). -/
def VARIANTS : List String := ["mild", "balanced", "cinematic"]

/-! ### Quota tracker (index.ts lines 82–155) -/

/-- Per-user quota counter document `users/{uid}`; either field may be
absent in the stored document. -/
structure QuotaDoc where
  dailyRequests : Option Nat
  dailyDate : Option String
deriving DecidableEq

/-- `(data.dailyDate as string) || today` (index.ts line 137). -/
def effDate (doc : QuotaDoc) (today : String) : String :=
  match doc.dailyDate with
  | none => today
  | some s => if s = "" then today else s

/-- `Number.isFinite(data.dailyRequests) ? Number(data.dailyRequests) : 0`
(index.ts line 138). -/
def effRequests (doc : QuotaDoc) : Nat := doc.dailyRequests.getD 0

/-- `chargeQuota` (index.ts lines 129–155): the body of the Firestore
transaction.  `cost <= 0` returns before opening the transaction; a
date rollover resets the count to zero; exceeding the daily limit
throws `resource-exhausted`; otherwise the incremented count and
today's date label are written back. -/
def chargeQuotaRun (doc : QuotaDoc) (today : String) (cost dailyLimit : Nat) :
    Except Err QuotaDoc :=
  if cost = 0 then .ok doc
  else
    let dailyDate := effDate doc today
    let n := if today ≠ dailyDate then 0 else effRequests doc
    if dailyLimit < n + cost then
      .error ⟨.resourceExhausted, "Daily limit reached"⟩
    else
      .ok ⟨some (n + cost), some today⟩

/-- The stored document after a `chargeQuota` call: the transaction
aborts on the throw, leaving the document unchanged. -/
def chargeQuotaPost (doc : QuotaDoc) (today : String) (cost dailyLimit : Nat) :
    QuotaDoc :=
  match chargeQuotaRun doc today cost dailyLimit with
  | .ok d => d
  | .error _ => doc

/-! ### Scene documents -/

/-- One entry of a scene's `outputs[era]` list. -/
structure OutputRecord where
  variant : String
  gsUri : String
  width : Option Nat
  height : Option Nat
  sha256 : Option String
deriving DecidableEq

/-- A scene document `scenes/{sceneId}`.  `ownerUid = ""` stands for a
missing/falsy owner field, `eras = []` for a missing or empty era list,
and `outputs` maps absent era keys to `[]`. -/
structure Scene where
  ownerUid : String
  original : Option String
  eras : List String
  outputs : String → List OutputRecord
  isPublic : Bool

/-- The upsert of a fresh render record into an `outputs[era]` list
(index.ts lines 342–345): drop every prior entry with the same variant,
then append the new record. -/
def upsertOutput (arr : List OutputRecord) (r : OutputRecord) : List OutputRecord :=
  arr.filter (fun x => x.variant ≠ r.variant) ++ [r]

/-- Invariant: an outputs list holds at most one entry per variant. -/
def noDupVariants (l : List OutputRecord) : Prop :=
  ∀ v : String, (l.filter (fun x => x.variant = v)).length ≤ 1

/-- The scene document after the `ref.set({outputs: newOutputs, ...})`
merge write (index.ts lines 341–346): the era's list is upserted, the
rest of the document is unchanged. -/
def upsertScene (s : Scene) (e : String) (r : OutputRecord) : Scene :=
  { s with outputs := fun k => if k = e then upsertOutput (s.outputs e) r else s.outputs k }

/-! ### The render request handler (index.ts lines 277–350) -/

/-- One part of the generative model's response. -/
structure GenPart where
  inlineData : Option String
  text : Option String
deriving DecidableEq

/-- `p?.inlineData?.data` is truthy (index.ts line 327). -/
def hasImage (p : GenPart) : Bool :=
  match p.inlineData with
  | some d => d ≠ ""
  | none => false

/-- `typeof p?.text === "string"` (index.ts line 329). -/
def hasText (p : GenPart) : Bool := p.text.isSome

/-- The environment a request executes against: the document store, the
object store, the clock/limit policy, and the external image pipeline
(base64 decode + JPEG re-encode, SHA-256, pixel dimensions) as opaque
deterministic functions. -/
structure RenderEnv where
  scenes : String → Option Scene
  storageExists : String → Bool
  quota : QuotaDoc
  today : String
  dailyLimit : Nat
  hasApiKey : Bool
  modelParts : List GenPart
  decodeRender : String → String
  shaFn : String → String
  dims : String → Nat × Nat
  bucketName : String
  rand : String

/-- The fields of an incoming callable request that the handlers read. -/
structure RenderReq where
  authUid : Option String
  sceneId : Option String
  era : Option String
  variant : Option String
  reroll : Bool

/-- The record a render call returns; `cached` is the served-from-cache
marker, absent (`false`) on a fresh render. -/
structure RenderResult where
  variant : String
  gsUri : String
  width : Option Nat
  height : Option Nat
  sha256 : Option String
  cached : Bool
deriving DecidableEq

/-- Observable outcome of one `renderEra` call: the response or error,
the stored quota document afterwards, whether the generative model was
invoked, and the scene collection afterwards. -/
structure RenderTrace where
  result : Except Err RenderResult
  quota : QuotaDoc
  modelCalled : Bool
  scenes : String → Option Scene

/-- `assertAuth` (index.ts lines 54–58): the uid must be truthy. -/
def assertAuth (uid : Option String) : Option String := truthy uid

/-- `assertString` (index.ts lines 48–52): present and nonblank. -/
def validStr (s : Option String) : Option String :=
  match s with
  | none => none
  | some v => if isBlank v then none else some v

/-- The deterministic output path for `(sceneId, era, variant)`
(index.ts line 296). -/
def outPathFor (sceneId eraVal variantVal : String) : String :=
  joinPath ["scenes", sceneId, "renders", eraVal, variantVal ++ ".jpg"]

/-- A trace for a call that failed before charging or rendering. -/
def errTrace (env : RenderEnv) (e : Err) : RenderTrace :=
  ⟨.error e, env.quota, false, env.scenes⟩

/-- The environment as a second identical call observes it after a
first call with trace `t` that stored an object at `path`: the scene
collection and quota document are `t`'s, and the object at `path` now
exists. -/
def rerunEnv (env : RenderEnv) (t : RenderTrace) (path : String) : RenderEnv :=
  { env with
    scenes := t.scenes
    quota := t.quota
    storageExists := fun p => if p = path then true else env.storageExists p }

/-- View an outputs entry as a response record. -/
def recordToResult (r : OutputRecord) (cached : Bool) : RenderResult :=
  ⟨r.variant, r.gsUri, r.width, r.height, r.sha256, cached⟩

/-- The record `saveRender` produces for inline image data `d`
(index.ts lines 168–212 and 333–340): re-encode, hash, measure, store
at the canonical path. -/
def freshRecord (env : RenderEnv) (sceneId eraVal variantVal d : String) :
    OutputRecord :=
  let rendered := env.decodeRender d
  ⟨variantVal,
   "gs://" ++ env.bucketName ++ "/"
     ++ (joinPath ["scenes", sceneId, "renders", eraVal, variantVal] ++ ".jpg"),
   some (env.dims rendered).1, some (env.dims rendered).2,
   some (env.shaFn rendered)⟩

/-- The fallback-or-text message used when the model returns no image
(index.ts lines 329–330). -/
def noImageMsg (parts : List GenPart) : String :=
  match parts.find? (fun p => hasText p) with
  | some t => t.text.getD ""
  | none => "No image returned by model"

/-- `renderEra` (index.ts lines 277–350), step for step: authenticate,
validate the request strings, validate the enumerations, load and
ownership-check the scene, consult the idempotency cache, charge one
quota unit, check the original image, check the model credentials,
invoke the model, and either fail on a missing image part or persist
and upsert the fresh record. -/
def renderEra (env : RenderEnv) (req : RenderReq) : RenderTrace :=
  match assertAuth req.authUid with
  | none => errTrace env ⟨.unauthenticated, "Authentication required"⟩
  | some uid =>
  match validStr req.sceneId with
  | none => errTrace env ⟨.invalidArgument, "sceneId must be a non-empty string"⟩
  | some sceneId =>
  match validStr req.era with
  | none => errTrace env ⟨.invalidArgument, "era must be a non-empty string"⟩
  | some eraVal =>
  match validStr req.variant with
  | none => errTrace env ⟨.invalidArgument, "variant must be a non-empty string"⟩
  | some variantVal =>
  if eraVal ∉ ERAS then errTrace env ⟨.invalidArgument, "Invalid era"⟩
  else if variantVal ∉ VARIANTS then errTrace env ⟨.invalidArgument, "Invalid variant"⟩
  else
  match env.scenes sceneId with
  | none => errTrace env ⟨.notFound, "Scene not found"⟩
  | some data =>
  if data.ownerUid = "" ∨ data.ownerUid ≠ uid then
    errTrace env ⟨.permissionDenied, "You do not own this scene"⟩
  else
  let outPath := outPathFor sceneId eraVal variantVal
  if req.reroll = false ∧ env.storageExists outPath = true then
    let gsUri := "gs://" ++ env.bucketName ++ "/" ++ outPath
    match (data.outputs eraVal).find? (fun o => o.variant = variantVal) with
    | some found => ⟨.ok (recordToResult found true), env.quota, false, env.scenes⟩
    | none => ⟨.ok ⟨variantVal, gsUri, none, none, none, true⟩, env.quota, false, env.scenes⟩
  else
  match chargeQuotaRun env.quota env.today 1 env.dailyLimit with
  | .error e => errTrace env e
  | .ok quotaCharged =>
  match truthy data.original with
  | none =>
      ⟨.error ⟨.failedPrecondition, "Scene is missing original image"⟩,
       quotaCharged, false, env.scenes⟩
  | some originalUri =>
  if env.hasApiKey = false then
    ⟨.error ⟨.failedPrecondition,
             "Missing GOOGLE_API_KEY (or GEMINI_API_KEY) in functions/.env"⟩,
     quotaCharged, false, env.scenes⟩
  else
  match gsPathFromUri originalUri with
  | none => ⟨.error ⟨.invalidArgument, "Invalid gs:// URI"⟩, quotaCharged, false, env.scenes⟩
  | some _origPath =>
  match env.modelParts.find? (fun p => hasImage p) with
  | none =>
      ⟨.error ⟨.internal, "Generation failed: " ++ noImageMsg env.modelParts⟩,
       quotaCharged, true, env.scenes⟩
  | some imagePart =>
      let record := freshRecord env sceneId eraVal variantVal (imagePart.inlineData.getD "")
      ⟨.ok (recordToResult record false), quotaCharged, true,
       fun k => if k = sceneId then some (upsertScene data eraVal record) else env.scenes k⟩

/-! ### The publish handler (index.ts lines 352–404) -/

/-- The public listing document created at `public/{publicId}`
(index.ts lines 392–398), without the server timestamp. -/
structure Listing where
  sceneId : String
  coverRef : String
  eraDefault : String
  viewCount : Nat
deriving DecidableEq

/-- `data.eras && data.eras.length ? data.eras : [full era set]`
(index.ts line 360). -/
def effEras (s : Scene) : List String :=
  if s.eras.isEmpty then ERAS else s.eras

/-- The cover-selection loop (index.ts lines 362–369): first era in
order with a nonempty outputs list; within it the `balanced` variant if
present, else the first record. -/
def coverFor (outputs : String → List OutputRecord) : List String → Option String
  | [] => none
  | e :: rest =>
    match outputs e with
    | [] => coverFor outputs rest
    | a :: tl =>
      some (match (a :: tl).find? (fun x => x.variant = "balanced") with
            | some b => b.gsUri
            | none => a.gsUri)

/-- `publishScene` (index.ts lines 352–404): authenticate, validate,
ownership-check, choose the cover (falling back to the original image),
download it for thumbnailing, then create the public listing.  Returns
the new document id and the listing. -/
def publishScene (env : RenderEnv) (req : RenderReq) : Except Err (String × Listing) :=
  match assertAuth req.authUid with
  | none => .error ⟨.unauthenticated, "Authentication required"⟩
  | some uid =>
  match validStr req.sceneId with
  | none => .error ⟨.invalidArgument, "sceneId must be a non-empty string"⟩
  | some sceneId =>
  match env.scenes sceneId with
  | none => .error ⟨.notFound, "Scene not found"⟩
  | some data =>
  if data.ownerUid = "" ∨ data.ownerUid ≠ uid then
    .error ⟨.permissionDenied, "You do not own this scene"⟩
  else
  let eras := effEras data
  let coverRef :=
    match truthy (coverFor data.outputs eras) with
    | some u => some u
    | none => truthy data.original
  match coverRef with
  | none => .error ⟨.failedPrecondition, "No image available to publish"⟩
  | some cover =>
  match gsPathFromUri cover with
  | none => .error ⟨.internal, "Error"⟩
  | some srcPath =>
  if env.storageExists srcPath = false then .error ⟨.internal, "Error"⟩
  else
  let publicId := "p_" ++ sceneId.take 6 ++ "_" ++ env.rand
  let eraDefault :=
    match eras with
    | [] => "1920"
    | h :: _ => if h = "" then "1920" else h
  .ok (publicId, ⟨sceneId, cover, eraDefault, 0⟩)

/-! ### Read-access check (index.ts lines 411–417) -/

/-- `assertAccess`: owner or public, else `permission-denied`; used by
the signed-URL serving endpoints. -/
def assertAccess (scene : Scene) (uid : Option String) : Except Err Unit :=
  let isOwner :=
    match truthy uid with
    | some u => scene.ownerUid = u
    | none => false
  if isOwner = true ∨ scene.isPublic = true then .ok ()
  else .error ⟨.permissionDenied, "You do not have access to this scene"⟩

/-! ### Concrete instances used by witnesses and counterexamples -/

/-- A stored render record used by the witnesses. -/
def wOut : OutputRecord :=
  ⟨"mild", "gs://b/scenes/s1/renders/1920/mild.jpg", some 640, some 480, some "hash1"⟩

/-- A scene owned by alice with one stored 1920/mild output. -/
def sW : Scene :=
  { ownerUid := "alice"
    original := some "gs://b/scenes/s1/original.jpg"
    eras := ["1920", "1970"]
    outputs := fun e => if e = "1920" then [wOut] else []
    isPublic := false }

/-- A concrete environment: scene `s1`, quota 3/10 used today, a model
that returns one inline image, and every storage object present. -/
def envW : RenderEnv :=
  { scenes := fun i => if i = "s1" then some sW else none
    storageExists := fun _ => true
    quota := ⟨some 3, some "2026-10-11"⟩
    today := "2026-10-11"
    dailyLimit := 10
    hasApiKey := true
    modelParts := [⟨some "imgdata", none⟩]
    decodeRender := fun d => d ++ "!"
    shaFn := fun d => "sha-" ++ d
    dims := fun _ => (640, 480)
    bucketName := "b"
    rand := "abc123" }

/-- Alice's render request for `(s1, 1920, mild)` without reroll. -/
def reqW : RenderReq :=
  { authUid := some "alice", sceneId := some "s1", era := some "1920"
    variant := some "mild", reroll := false }

/-- Concrete records for the C4 witness: two renders of the same
`(era, variant)` with different content hashes. -/
def wrA : OutputRecord :=
  ⟨"balanced", "gs://b/scenes/s1/renders/1920/balanced.jpg", some 640, some 480, some "hashA"⟩

/-- Second render of the same pair, carrying a new content hash. -/
def wrB : OutputRecord :=
  ⟨"balanced", "gs://b/scenes/s1/renders/1920/balanced.jpg", some 640, some 480, some "hashB"⟩

/-- A scene without an attached original image. -/
def sNoOrig : Scene :=
  { ownerUid := "alice", original := none, eras := ["1920"]
    outputs := fun _ => [], isPublic := false }

/-- Environment for the C5 counterexample: no original, no cached
object, quota at 3 of 10 today. -/
def envNoOrig : RenderEnv :=
  { envW with
    scenes := fun i => if i = "s1" then some sNoOrig else none
    storageExists := fun _ => false }

/-- Environment for the C9 counterexample: same scene, no cached
object, and a model response holding only a text part. -/
def envNoImg : RenderEnv :=
  { envW with
    storageExists := fun _ => false
    modelParts := [⟨none, some "cannot comply"⟩] }

/-- A balanced render record stored under era 1970. -/
def wBal : OutputRecord :=
  ⟨"balanced", "gs://b/scenes/s1/renders/1970/balanced.jpg", some 640, some 480, some "hashL"⟩

/-- A scene whose outputs exist only for the later configured era. -/
def sLate : Scene :=
  { ownerUid := "alice"
    original := some "gs://b/scenes/s1/original.jpg"
    eras := ["1920", "1970"]
    outputs := fun e => if e = "1970" then [wBal] else []
    isPublic := false }

/-- Environment holding the later-era scene. -/
def envLate : RenderEnv :=
  { envW with scenes := fun i => if i = "s1" then some sLate else none }

/-- A scene with an original image but no outputs under any era. -/
def sNoOut : Scene :=
  { ownerUid := "alice"
    original := some "gs://b/scenes/s1/original.jpg"
    eras := ["1920", "1970"]
    outputs := fun _ => []
    isPublic := false }

/-- Environment holding the outputs-free scene. -/
def envNoOut : RenderEnv :=
  { envW with scenes := fun i => if i = "s1" then some sNoOut else none }

/-! ## Theorems -/

/-! ### Quota rollover (C2) -/

/-- C2 (amended): for every quota counter whose stored date label is a
date other than today, a `charge(userId, cost, dailyLimit)` call with
`0 < cost ≤ dailyLimit` succeeds, the old count is reset before the
charge is applied so the stored post-charge count equals `cost`, and
the stored date label becomes today. -/
theorem chargeQuota_rollover (doc : QuotaDoc) (today dl : String)
    (cost dailyLimit : Nat) (hdate : doc.dailyDate = some dl) (hne : dl ≠ "")
    (hdiff : dl ≠ today) (hpos : 1 ≤ cost) (hle : cost ≤ dailyLimit) :
    chargeQuotaRun doc today cost dailyLimit = .ok ⟨some cost, some today⟩ ∧
    chargeQuotaPost doc today cost dailyLimit = ⟨some cost, some today⟩ := by
  have hc : cost ≠ 0 := by omega
  have heff : effDate doc today = dl := by simp [effDate, hdate, hne]
  have hrun : chargeQuotaRun doc today cost dailyLimit = .ok ⟨some cost, some today⟩ := by
    simp only [chargeQuotaRun, hc, if_false, heff]
    rw [if_pos (Ne.symm hdiff)]
    simp [Nat.not_lt.mpr hle]
  exact ⟨hrun, by simp [chargeQuotaPost, hrun]⟩

/-- C2 witness: counter at count 7 dated 2026-10-10, charged 1 on
2026-10-11 with limit 10, ends at count 1 dated 2026-10-11. -/
theorem chargeQuota_rollover_witness :
    chargeQuotaRun ⟨some 7, some "2026-10-10"⟩ "2026-10-11" 1 10 =
      .ok ⟨some 1, some "2026-10-11"⟩ ∧
    chargeQuotaPost ⟨some 7, some "2026-10-10"⟩ "2026-10-11" 1 10 =
      ⟨some 1, some "2026-10-11"⟩ :=
  chargeQuota_rollover ⟨some 7, some "2026-10-10"⟩ "2026-10-11" "2026-10-10" 1 10
    rfl (by decide) (by decide) (by decide) (by decide)

/-- C2 counterexample: a zero-cost charge (`cost = 0 ≤ dailyLimit`) on a
counter dated the previous day returns before opening the transaction,
so the call succeeds yet the stored count stays 5 — not `cost` — and
the stored date label stays at the old day instead of becoming today. -/
theorem chargeQuota_rollover_cost_zero_cex :
    (0 : Nat) ≤ 10 ∧ ("2026-10-10" : String) ≠ "2026-10-11" ∧
    chargeQuotaRun ⟨some 5, some "2026-10-10"⟩ "2026-10-11" 0 10 =
      .ok ⟨some 5, some "2026-10-10"⟩ ∧
    chargeQuotaPost ⟨some 5, some "2026-10-10"⟩ "2026-10-11" 0 10 =
      ⟨some 5, some "2026-10-10"⟩ :=
  ⟨by decide, by decide, rfl, rfl⟩

/-! ### Quota exhaustion (C3) -/

/-- A same-day charge within the limit increments the stored count. -/
lemma chargeQuota_sameDay_ok (N cost dailyLimit : Nat) (today : String)
    (hpos : 1 ≤ cost) (hfit : N + cost ≤ dailyLimit) :
    chargeQuotaRun ⟨some N, some today⟩ today cost dailyLimit =
      .ok ⟨some (N + cost), some today⟩ := by
  have hc : cost ≠ 0 := by omega
  have heff : effDate ⟨some N, some today⟩ today = today := by
    simp [effDate, ite_self]
  simp only [chargeQuotaRun, hc, if_false, heff]
  simp [effRequests, Nat.not_lt.mpr hfit]

/-- C3 (amended): for a same-day counter at count `N` and a charge of
`cost ≥ 1`: if `N + cost > dailyLimit` the call fails with
`resource-exhausted` and the stored document is unchanged (no partial
charge); otherwise it succeeds and the stored count becomes `N + cost`. -/
theorem chargeQuota_exhaustion (N cost dailyLimit : Nat) (today : String)
    (hpos : 1 ≤ cost) :
    (dailyLimit < N + cost →
      chargeQuotaRun ⟨some N, some today⟩ today cost dailyLimit =
        .error ⟨.resourceExhausted, "Daily limit reached"⟩ ∧
      chargeQuotaPost ⟨some N, some today⟩ today cost dailyLimit =
        ⟨some N, some today⟩) ∧
    (N + cost ≤ dailyLimit →
      chargeQuotaRun ⟨some N, some today⟩ today cost dailyLimit =
        .ok ⟨some (N + cost), some today⟩) := by
  have hc : cost ≠ 0 := by omega
  have heff : effDate ⟨some N, some today⟩ today = today := by
    simp [effDate, ite_self]
  constructor
  · intro hover
    have hrun : chargeQuotaRun ⟨some N, some today⟩ today cost dailyLimit =
        .error ⟨.resourceExhausted, "Daily limit reached"⟩ := by
      simp only [chargeQuotaRun, hc, if_false, heff]
      simp [effRequests, hover]
    exact ⟨hrun, by simp [chargeQuotaPost, hrun]⟩
  · intro hfit
    exact chargeQuota_sameDay_ok N cost dailyLimit today hpos hfit

/-- C3 witness: counter at 9 today, charging 2 with limit 10 fails with
`resource-exhausted` and leaves the stored count at 9; the variant
charging within the limit is exercised at count 4. -/
theorem chargeQuota_exhaustion_witness :
    chargeQuotaRun ⟨some 9, some "2026-10-11"⟩ "2026-10-11" 2 10 =
      .error ⟨.resourceExhausted, "Daily limit reached"⟩ ∧
    chargeQuotaPost ⟨some 9, some "2026-10-11"⟩ "2026-10-11" 2 10 =
      ⟨some 9, some "2026-10-11"⟩ :=
  (chargeQuota_exhaustion 9 2 10 "2026-10-11" (by decide)).1 (by decide)

/-- C3 counterexample: a same-day counter already over the limit
(count 11, limit 10) charged with `cost = 0` has `N + cost > dailyLimit`,
yet the call succeeds instead of failing with `QuotaExceeded`, because
`chargeQuota` returns early on non-positive cost. -/
theorem chargeQuota_exhaustion_cost_zero_cex :
    (10 : Nat) < 11 + 0 ∧
    chargeQuotaRun ⟨some 11, some "2026-10-11"⟩ "2026-10-11" 0 10 =
      .ok ⟨some 11, some "2026-10-11"⟩ :=
  ⟨by decide, rfl⟩

/-! ### Output upsert (C4) -/

/-- Filtering for a variant after filtering it out yields nothing. -/
lemma filter_eq_of_filter_ne (arr : List OutputRecord) (v : String) :
    (arr.filter (fun x => x.variant ≠ v)).filter (fun x => x.variant = v) = [] := by
  induction arr with
  | nil => rfl
  | cons a tl ih => by_cases h : a.variant = v <;> simp [h, ih]

/-- The upsert leaves exactly the new record at its variant key. -/
lemma filter_upsert_same (arr : List OutputRecord) (r : OutputRecord) :
    (upsertOutput arr r).filter (fun x => x.variant = r.variant) = [r] := by
  simp [upsertOutput, List.filter_append, filter_eq_of_filter_ne]

/-- Filtering a variant out is idempotent. -/
lemma filter_ne_idem (arr : List OutputRecord) (v : String) :
    (arr.filter (fun x => x.variant ≠ v)).filter (fun x => x.variant ≠ v) =
      arr.filter (fun x => x.variant ≠ v) := by
  induction arr with
  | nil => rfl
  | cons a tl ih => by_cases h : a.variant = v <;> simp [h, ih]

/-- Removing one variant can only shrink another variant's entries. -/
lemma length_filter_after_remove (arr : List OutputRecord) (rv v : String) :
    ((arr.filter (fun x => x.variant ≠ rv)).filter (fun x => x.variant = v)).length ≤
      (arr.filter (fun x => x.variant = v)).length :=
  List.Sublist.length_le (List.Sublist.filter _ (List.filter_sublist arr))

/-- C4: the outputs upsert keeps at most one entry per variant.  The
insert filters the prior entry for its variant before appending, so the
upserted list has exactly one entry at that variant (the new record);
after a second render of the same `(era, variant)` the list still has
exactly one entry at that variant, holding the latest record (hence the
latest content hash), and the list length is unchanged by the second
render; and the at-most-one-per-variant invariant is preserved. -/
theorem outputs_upsert_unique (arr : List OutputRecord) (r1 r2 : OutputRecord)
    (hv : r2.variant = r1.variant) (hnd : noDupVariants arr) :
    (upsertOutput arr r1).filter (fun x => x.variant = r1.variant) = [r1] ∧
    (upsertOutput (upsertOutput arr r1) r2).filter (fun x => x.variant = r2.variant) = [r2] ∧
    (upsertOutput (upsertOutput arr r1) r2).length = (upsertOutput arr r1).length ∧
    noDupVariants (upsertOutput arr r1) := by
  refine ⟨filter_upsert_same arr r1, filter_upsert_same _ r2, ?_, ?_⟩
  · simp only [upsertOutput, hv, List.filter_append, List.length_append]
    rw [filter_ne_idem]
    simp
  · intro v
    by_cases hveq : v = r1.variant
    · subst hveq
      rw [filter_upsert_same]
      simp
    · have hne : r1.variant ≠ v := fun h => hveq h.symm
      have hlast : [r1].filter (fun x => x.variant = v) = [] := by simp [hne]
      simp only [upsertOutput, List.filter_append, hlast, List.length_append,
        List.length_nil, Nat.add_zero]
      exact le_trans (length_filter_after_remove arr r1.variant v) (hnd v)

/-- C4 witness: two successive upserts of the `balanced` variant leave a
single entry holding the latest hash, with the list length unchanged. -/
theorem outputs_upsert_unique_witness :
    (upsertOutput [] wrA).filter (fun x => x.variant = wrA.variant) = [wrA] ∧
    (upsertOutput (upsertOutput [] wrA) wrB).filter (fun x => x.variant = wrB.variant) = [wrB] ∧
    (upsertOutput (upsertOutput [] wrA) wrB).length = (upsertOutput [] wrA).length ∧
    noDupVariants (upsertOutput [] wrA) :=
  outputs_upsert_unique [] wrA wrB rfl (fun v => by simp)

/-! ### Enum validation (C6) -/

/-- Every member of the era enumeration passes `assertString`. -/
lemma mem_ERAS_valid (e : String) (h : e ∈ ERAS) : validStr (some e) = some e := by
  simp only [ERAS] at h
  fin_cases h <;> rfl

/-- Every member of the variant enumeration passes `assertString`. -/
lemma mem_VARIANTS_valid (v : String) (h : v ∈ VARIANTS) :
    validStr (some v) = some v := by
  simp only [VARIANTS] at h
  fin_cases h <;> rfl

/-- A call whose trace is an `invalid-argument` early failure satisfies
the C6 conclusion. -/
lemma invalid_of_trace (env : RenderEnv) (t : RenderTrace) (m : String)
    (ht : t = errTrace env ⟨.invalidArgument, m⟩) :
    (∃ m2, t.result = .error ⟨.invalidArgument, m2⟩) ∧ t.quota = env.quota ∧
    t.modelCalled = false ∧ t.scenes = env.scenes := by
  subst ht
  exact ⟨⟨m, rfl⟩, rfl, rfl, rfl⟩

/-- C6: an authenticated render request whose era or variant string lies
outside the active enumerations fails with `invalid-argument`, with the
quota counter, the model-call flag and the scene collection untouched. -/
theorem renderEra_invalid_enum (env : RenderEnv) (req : RenderReq) (uid e v : String)
    (hauth : req.authUid = some uid) (huid : uid ≠ "")
    (hera : req.era = some e) (hvar : req.variant = some v)
    (hbad : e ∉ ERAS ∨ v ∉ VARIANTS) :
    (∃ m, (renderEra env req).result = .error ⟨.invalidArgument, m⟩) ∧
    (renderEra env req).quota = env.quota ∧
    (renderEra env req).modelCalled = false ∧
    (renderEra env req).scenes = env.scenes := by
  have hA : assertAuth req.authUid = some uid := by
    simp [assertAuth, truthy, hauth, huid]
  rcases hs : validStr req.sceneId with _ | sid
  · exact invalid_of_trace env _ "sceneId must be a non-empty string"
      (by simp only [renderEra, hA, hs])
  by_cases hbe : isBlank e
  · have he : validStr req.era = none := by simp [validStr, hera, hbe]
    exact invalid_of_trace env _ "era must be a non-empty string"
      (by simp only [renderEra, hA, hs, he])
  have he : validStr req.era = some e := by simp [validStr, hera, hbe]
  by_cases hbv : isBlank v
  · have hvs : validStr req.variant = none := by simp [validStr, hvar, hbv]
    exact invalid_of_trace env _ "variant must be a non-empty string"
      (by simp only [renderEra, hA, hs, he, hvs])
  have hvs : validStr req.variant = some v := by simp [validStr, hvar, hbv]
  by_cases hem : e ∈ ERAS
  · have hv' : v ∉ VARIANTS := hbad.resolve_left (fun h => h hem)
    refine invalid_of_trace env _ "Invalid variant" ?_
    simp only [renderEra, hA, hs, he, hvs]
    rw [if_neg (fun hn => hn hem), if_pos hv']
  · refine invalid_of_trace env _ "Invalid era" ?_
    simp only [renderEra, hA, hs, he, hvs]
    rw [if_pos hem]

/-- C6 witness: era `1850` is outside the enumeration; the call fails
`invalid-argument` leaving quota, model and scenes untouched. -/
theorem renderEra_invalid_enum_witness :
    (∃ m, (renderEra envW { reqW with era := some "1850" }).result =
      .error ⟨.invalidArgument, m⟩) ∧
    (renderEra envW { reqW with era := some "1850" }).quota = envW.quota ∧
    (renderEra envW { reqW with era := some "1850" }).modelCalled = false ∧
    (renderEra envW { reqW with era := some "1850" }).scenes = envW.scenes :=
  renderEra_invalid_enum envW { reqW with era := some "1850" } "alice" "1850" "mild"
    rfl (by decide) rfl rfl (Or.inl (by decide))

/-! ### Idempotent render, cache hit (C1) -/

/-- The fresh record's variant field is the requested variant. -/
lemma freshRecord_variant (env : RenderEnv) (sid e v d : String) :
    (freshRecord env sid e v d).variant = v := rfl

/-- Searching an upserted list for the upserted variant finds exactly
the new record. -/
lemma find_upsert (arr : List OutputRecord) (r : OutputRecord) :
    (upsertOutput arr r).find? (fun o => o.variant = r.variant) = some r := by
  unfold upsertOutput
  induction arr with
  | nil => simp
  | cons a tl ih =>
    by_cases h : a.variant = r.variant
    · simp [h, ih]
    · simp [h, ih]

/-- The upserted scene holds the upserted list at the written era. -/
lemma upsertScene_outputs_self (s : Scene) (e : String) (r : OutputRecord) :
    (upsertScene s e r).outputs e = upsertOutput (s.outputs e) r := by
  simp [upsertScene]

/-- Evaluation of `renderEra` when the object already exists at the
deterministic output path and no reroll is requested: the call reduces
to the cache lookup, with no transaction and no model call. -/
lemma renderEra_cached_eval (env : RenderEnv) (req : RenderReq)
    (uid sid e v : String) (s : Scene)
    (hauth : req.authUid = some uid) (huid : uid ≠ "")
    (hsid : req.sceneId = some sid) (hsidb : isBlank sid = false)
    (hera : req.era = some e) (heram : e ∈ ERAS)
    (hvar : req.variant = some v) (hvarm : v ∈ VARIANTS)
    (hscene : env.scenes sid = some s) (howner : s.ownerUid = uid)
    (hre : req.reroll = false)
    (hex : env.storageExists (outPathFor sid e v) = true) :
    renderEra env req =
      match (s.outputs e).find? (fun o => o.variant = v) with
      | some found => ⟨.ok (recordToResult found true), env.quota, false, env.scenes⟩
      | none => ⟨.ok ⟨v, "gs://" ++ env.bucketName ++ "/" ++ outPathFor sid e v,
                     none, none, none, true⟩, env.quota, false, env.scenes⟩ := by
  have hA : assertAuth req.authUid = some uid := by
    simp [assertAuth, truthy, hauth, huid]
  have hS : validStr req.sceneId = some sid := by simp [validStr, hsid, hsidb]
  have hE : validStr req.era = some e := by rw [hera]; exact mem_ERAS_valid e heram
  have hV : validStr req.variant = some v := by rw [hvar]; exact mem_VARIANTS_valid v hvarm
  have hown : ¬(s.ownerUid = "" ∨ s.ownerUid ≠ uid) := by
    rw [howner]
    push_neg
    exact ⟨huid, rfl⟩
  simp only [renderEra, hA, hS, hE, hV, hscene]
  rw [if_neg (fun hn => hn heram), if_neg (fun hn => hn hvarm), if_neg hown,
    if_pos ⟨hre, hex⟩]

/-- Evaluation of `renderEra` along the fresh-render path: cache miss
(or reroll), successful quota charge, original present, model key
present, and a model response containing an image part.  The call
charges the quota, invokes the model, stores the fresh record and
upserts it into the scene's outputs. -/
lemma renderEra_fresh_eval (env : RenderEnv) (req : RenderReq)
    (uid sid e v orig op : String) (s : Scene) (q1 : QuotaDoc) (img : GenPart)
    (hauth : req.authUid = some uid) (huid : uid ≠ "")
    (hsid : req.sceneId = some sid) (hsidb : isBlank sid = false)
    (hera : req.era = some e) (heram : e ∈ ERAS)
    (hvar : req.variant = some v) (hvarm : v ∈ VARIANTS)
    (hscene : env.scenes sid = some s) (howner : s.ownerUid = uid)
    (hnc : ¬(req.reroll = false ∧ env.storageExists (outPathFor sid e v) = true))
    (hq : chargeQuotaRun env.quota env.today 1 env.dailyLimit = .ok q1)
    (horig : truthy s.original = some orig)
    (hop : gsPathFromUri orig = some op)
    (hkey : env.hasApiKey = true)
    (himg : env.modelParts.find? (fun p => hasImage p) = some img) :
    renderEra env req =
      ⟨.ok (recordToResult (freshRecord env sid e v (img.inlineData.getD "")) false),
       q1, true,
       fun k => if k = sid then
           some (upsertScene s e (freshRecord env sid e v (img.inlineData.getD "")))
         else env.scenes k⟩ := by
  have hA : assertAuth req.authUid = some uid := by
    simp [assertAuth, truthy, hauth, huid]
  have hS : validStr req.sceneId = some sid := by simp [validStr, hsid, hsidb]
  have hE : validStr req.era = some e := by rw [hera]; exact mem_ERAS_valid e heram
  have hV : validStr req.variant = some v := by rw [hvar]; exact mem_VARIANTS_valid v hvarm
  have hown : ¬(s.ownerUid = "" ∨ s.ownerUid ≠ uid) := by
    rw [howner]
    push_neg
    exact ⟨huid, rfl⟩
  have hkf : (env.hasApiKey = false) = False := by simp [hkey]
  simp only [renderEra, hA, hS, hE, hV, hscene, hq, horig, hop, himg, hkf,
    if_false]
  rw [if_neg (fun hn => hn heram), if_neg (fun hn => hn hvarm), if_neg hown,
    if_neg hnc]

/-- C1: with no reroll requested and the object already present at the
deterministic output path for `(sceneId, era, variant)`: if a record
with that variant is in the scene's `outputs[era]` list, the call
returns it marked served-from-cache with no quota charge and no model
call; if not, it returns a minimal record of just the storage reference
and the variant, marked served-from-cache.  Moreover a fresh render
followed by an identical second call (no force flag) invokes the model
only on the first call, and the second call returns a cache-marked
record with the same content hash, again without charging quota. -/
theorem renderEra_cache_hit (env : RenderEnv) (req : RenderReq)
    (uid sid e v : String) (s : Scene)
    (hauth : req.authUid = some uid) (huid : uid ≠ "")
    (hsid : req.sceneId = some sid) (hsidb : isBlank sid = false)
    (hera : req.era = some e) (heram : e ∈ ERAS)
    (hvar : req.variant = some v) (hvarm : v ∈ VARIANTS)
    (hscene : env.scenes sid = some s) (howner : s.ownerUid = uid)
    (hre : req.reroll = false)
    (hex : env.storageExists (outPathFor sid e v) = true) :
    (renderEra env req).modelCalled = false ∧
    (renderEra env req).quota = env.quota ∧
    (renderEra env req).scenes = env.scenes ∧
    (∀ found, (s.outputs e).find? (fun o => o.variant = v) = some found →
      (renderEra env req).result = .ok (recordToResult found true)) ∧
    ((s.outputs e).find? (fun o => o.variant = v) = none →
      (renderEra env req).result =
        .ok ⟨v, "gs://" ++ env.bucketName ++ "/" ++ outPathFor sid e v,
             none, none, none, true⟩) ∧
    (∀ (env1 : RenderEnv) (req1 : RenderReq) (uid1 sid1 e1 v1 orig1 op1 : String)
       (s1 : Scene) (q1 : QuotaDoc) (img : GenPart),
      req1.authUid = some uid1 → uid1 ≠ "" →
      req1.sceneId = some sid1 → isBlank sid1 = false →
      req1.era = some e1 → e1 ∈ ERAS →
      req1.variant = some v1 → v1 ∈ VARIANTS →
      env1.scenes sid1 = some s1 → s1.ownerUid = uid1 →
      req1.reroll = false →
      env1.storageExists (outPathFor sid1 e1 v1) = false →
      chargeQuotaRun env1.quota env1.today 1 env1.dailyLimit = .ok q1 →
      truthy s1.original = some orig1 →
      gsPathFromUri orig1 = some op1 →
      env1.hasApiKey = true →
      env1.modelParts.find? (fun p => hasImage p) = some img →
      (renderEra env1 req1).result =
        .ok (recordToResult (freshRecord env1 sid1 e1 v1 (img.inlineData.getD "")) false) ∧
      (renderEra env1 req1).modelCalled = true ∧
      (renderEra (rerunEnv env1 (renderEra env1 req1) (outPathFor sid1 e1 v1)) req1).result =
        .ok (recordToResult (freshRecord env1 sid1 e1 v1 (img.inlineData.getD "")) true) ∧
      (renderEra (rerunEnv env1 (renderEra env1 req1) (outPathFor sid1 e1 v1)) req1).modelCalled
        = false ∧
      (renderEra (rerunEnv env1 (renderEra env1 req1) (outPathFor sid1 e1 v1)) req1).quota
        = (renderEra env1 req1).quota) := by
  have hch := renderEra_cached_eval env req uid sid e v s hauth huid hsid hsidb
    hera heram hvar hvarm hscene howner hre hex
  refine ⟨?_, ?_, ?_, ?_, ?_, ?_⟩
  · rw [hch]; cases hf : (s.outputs e).find? (fun o => o.variant = v) <;> rfl
  · rw [hch]; cases hf : (s.outputs e).find? (fun o => o.variant = v) <;> rfl
  · rw [hch]; cases hf : (s.outputs e).find? (fun o => o.variant = v) <;> rfl
  · intro found hf; rw [hch, hf]
  · intro hf; rw [hch, hf]
  · intro env1 req1 uid1 sid1 e1 v1 orig1 op1 s1 q1 img
    intro hauth1 huid1 hsid1 hsidb1 hera1 heram1 hvar1 hvarm1 hscene1 howner1
    intro hre1 hmiss1 hq1 horig1 hop1 hkey1 himg1
    have hnc1 : ¬(req1.reroll = false ∧
        env1.storageExists (outPathFor sid1 e1 v1) = true) := by
      rintro ⟨-, hst⟩
      rw [hmiss1] at hst
      exact Bool.noConfusion hst
    have ht1 := renderEra_fresh_eval env1 req1 uid1 sid1 e1 v1 orig1 op1 s1 q1 img
      hauth1 huid1 hsid1 hsidb1 hera1 heram1 hvar1 hvarm1 hscene1 howner1
      hnc1 hq1 horig1 hop1 hkey1 himg1
    have hscene2 : (rerunEnv env1 (renderEra env1 req1) (outPathFor sid1 e1 v1)).scenes sid1 =
        some (upsertScene s1 e1 (freshRecord env1 sid1 e1 v1 (img.inlineData.getD ""))) := by
      show (renderEra env1 req1).scenes sid1 = _
      rw [ht1]
      simp
    have hex2 : (rerunEnv env1 (renderEra env1 req1) (outPathFor sid1 e1 v1)).storageExists
        (outPathFor sid1 e1 v1) = true := by
      show (if outPathFor sid1 e1 v1 = outPathFor sid1 e1 v1 then true else _) = true
      simp
    have hfind2 : ((upsertScene s1 e1
          (freshRecord env1 sid1 e1 v1 (img.inlineData.getD ""))).outputs e1).find?
          (fun o => o.variant = v1) =
        some (freshRecord env1 sid1 e1 v1 (img.inlineData.getD "")) := by
      rw [upsertScene_outputs_self]
      have hfu := find_upsert (s1.outputs e1)
        (freshRecord env1 sid1 e1 v1 (img.inlineData.getD ""))
      simpa only [freshRecord_variant] using hfu
    have hch2 := renderEra_cached_eval
      (rerunEnv env1 (renderEra env1 req1) (outPathFor sid1 e1 v1)) req1
      uid1 sid1 e1 v1
      (upsertScene s1 e1 (freshRecord env1 sid1 e1 v1 (img.inlineData.getD "")))
      hauth1 huid1 hsid1 hsidb1 hera1 heram1 hvar1 hvarm1 hscene2 howner1 hre1 hex2
    refine ⟨by rw [ht1], by rw [ht1], ?_, ?_, ?_⟩
    · rw [hch2, hfind2]
    · rw [hch2, hfind2]
    · rw [hch2, hfind2]
      show (renderEra env1 req1).quota = _
      rw [ht1]

/-- C1 witness: alice re-requests `(s1, 1920, mild)` whose object is
already stored; she gets the stored record marked cached, no model
call, no quota change. -/
theorem renderEra_cache_hit_witness :
    (renderEra envW reqW).result = .ok (recordToResult wOut true) ∧
    (renderEra envW reqW).modelCalled = false ∧
    (renderEra envW reqW).quota = envW.quota := by
  have h := renderEra_cache_hit envW reqW "alice" "s1" "1920" "mild" sW
    rfl (by decide) rfl (by decide) rfl (by decide) rfl (by decide)
    rfl rfl rfl rfl
  exact ⟨h.2.2.2.1 wOut (by decide), h.1, h.2.1⟩

/-! ### Missing original image (C5) -/

/-- C5 (amended): for an authenticated owner call with valid era and
variant on a scene with no attached original image and no cached object
at the computed path, the call fails with `failed-precondition` and no
model call is made — but the quota charge happens before the
original-image check, so the failing call leaves the stored counter
incremented by one, not unchanged. -/
theorem renderEra_missing_original (env : RenderEnv) (req : RenderReq)
    (uid sid e v : String) (s : Scene) (N : Nat)
    (hauth : req.authUid = some uid) (huid : uid ≠ "")
    (hsid : req.sceneId = some sid) (hsidb : isBlank sid = false)
    (hera : req.era = some e) (heram : e ∈ ERAS)
    (hvar : req.variant = some v) (hvarm : v ∈ VARIANTS)
    (hscene : env.scenes sid = some s) (howner : s.ownerUid = uid)
    (hmiss : env.storageExists (outPathFor sid e v) = false)
    (hquota : env.quota = ⟨some N, some env.today⟩)
    (hfit : N + 1 ≤ env.dailyLimit)
    (hnoorig : truthy s.original = none) :
    (renderEra env req).result =
      .error ⟨.failedPrecondition, "Scene is missing original image"⟩ ∧
    (renderEra env req).quota = ⟨some (N + 1), some env.today⟩ ∧
    (renderEra env req).modelCalled = false ∧
    (renderEra env req).scenes = env.scenes := by
  have hA : assertAuth req.authUid = some uid := by
    simp [assertAuth, truthy, hauth, huid]
  have hS : validStr req.sceneId = some sid := by simp [validStr, hsid, hsidb]
  have hE : validStr req.era = some e := by rw [hera]; exact mem_ERAS_valid e heram
  have hV : validStr req.variant = some v := by rw [hvar]; exact mem_VARIANTS_valid v hvarm
  have hown : ¬(s.ownerUid = "" ∨ s.ownerUid ≠ uid) := by
    rw [howner]
    push_neg
    exact ⟨huid, rfl⟩
  have hnc : ¬(req.reroll = false ∧
      env.storageExists (outPathFor sid e v) = true) := by
    rintro ⟨-, hst⟩
    rw [hmiss] at hst
    exact Bool.noConfusion hst
  have hq : chargeQuotaRun env.quota env.today 1 env.dailyLimit =
      .ok ⟨some (N + 1), some env.today⟩ := by
    rw [hquota]
    exact chargeQuota_sameDay_ok N 1 env.dailyLimit env.today (by omega) hfit
  have ht : renderEra env req =
      ⟨.error ⟨.failedPrecondition, "Scene is missing original image"⟩,
       ⟨some (N + 1), some env.today⟩, false, env.scenes⟩ := by
    simp only [renderEra, hA, hS, hE, hV, hscene, hq, hnoorig]
    rw [if_neg (fun hn => hn heram), if_neg (fun hn => hn hvarm), if_neg hown,
      if_neg hnc]
  exact ⟨by rw [ht], by rw [ht], by rw [ht], by rw [ht]⟩

/-- C5 counterexample: the failing call does not leave the quota
counter unchanged — the stored count goes from 3 to 4 even though the
call fails with `failed-precondition`. -/
theorem renderEra_missing_original_cex :
    (renderEra envNoOrig reqW).result =
      .error ⟨.failedPrecondition, "Scene is missing original image"⟩ ∧
    envNoOrig.quota.dailyRequests = some 3 ∧
    (renderEra envNoOrig reqW).quota.dailyRequests = some 4 :=
  ⟨by decide, rfl, by decide⟩

/-- C5 witness: the amended statement at the concrete scene. -/
theorem renderEra_missing_original_witness :
    (renderEra envNoOrig reqW).result =
      .error ⟨.failedPrecondition, "Scene is missing original image"⟩ ∧
    (renderEra envNoOrig reqW).quota = ⟨some 4, some envNoOrig.today⟩ ∧
    (renderEra envNoOrig reqW).modelCalled = false ∧
    (renderEra envNoOrig reqW).scenes = envNoOrig.scenes :=
  renderEra_missing_original envNoOrig reqW "alice" "s1" "1920" "mild" sNoOrig 3
    rfl (by decide) rfl (by decide) rfl (by decide) rfl (by decide)
    rfl rfl rfl rfl (by decide) rfl

/-! ### Model returns no image (C9) -/

/-- C9 (amended): when the pipeline reaches the generative model and the
response contains no image part, the call fails with an `HttpsError`
whose code is `internal` — not a code distinct from Internal — and
whose message is `"Generation failed: "` followed by the first textual
part of the response, or the fixed fallback text when there is none. -/
theorem renderEra_generation_failed (env : RenderEnv) (req : RenderReq)
    (uid sid e v orig op : String) (s : Scene) (q1 : QuotaDoc)
    (hauth : req.authUid = some uid) (huid : uid ≠ "")
    (hsid : req.sceneId = some sid) (hsidb : isBlank sid = false)
    (hera : req.era = some e) (heram : e ∈ ERAS)
    (hvar : req.variant = some v) (hvarm : v ∈ VARIANTS)
    (hscene : env.scenes sid = some s) (howner : s.ownerUid = uid)
    (hmiss : env.storageExists (outPathFor sid e v) = false)
    (hq : chargeQuotaRun env.quota env.today 1 env.dailyLimit = .ok q1)
    (horig : truthy s.original = some orig)
    (hop : gsPathFromUri orig = some op)
    (hkey : env.hasApiKey = true)
    (hnoimg : env.modelParts.find? (fun p => hasImage p) = none) :
    (renderEra env req).result =
      .error ⟨.internal, "Generation failed: " ++ noImageMsg env.modelParts⟩ ∧
    (renderEra env req).modelCalled = true ∧
    (env.modelParts.find? (fun p => hasText p) = none →
      noImageMsg env.modelParts = "No image returned by model") ∧
    (∀ tp, env.modelParts.find? (fun p => hasText p) = some tp →
      noImageMsg env.modelParts = tp.text.getD "") := by
  have hA : assertAuth req.authUid = some uid := by
    simp [assertAuth, truthy, hauth, huid]
  have hS : validStr req.sceneId = some sid := by simp [validStr, hsid, hsidb]
  have hE : validStr req.era = some e := by rw [hera]; exact mem_ERAS_valid e heram
  have hV : validStr req.variant = some v := by rw [hvar]; exact mem_VARIANTS_valid v hvarm
  have hown : ¬(s.ownerUid = "" ∨ s.ownerUid ≠ uid) := by
    rw [howner]
    push_neg
    exact ⟨huid, rfl⟩
  have hnc : ¬(req.reroll = false ∧
      env.storageExists (outPathFor sid e v) = true) := by
    rintro ⟨-, hst⟩
    rw [hmiss] at hst
    exact Bool.noConfusion hst
  have hkf : (env.hasApiKey = false) = False := by simp [hkey]
  have ht : renderEra env req =
      ⟨.error ⟨.internal, "Generation failed: " ++ noImageMsg env.modelParts⟩,
       q1, true, env.scenes⟩ := by
    simp only [renderEra, hA, hS, hE, hV, hscene, hq, horig, hop, hkf, if_false,
      hnoimg]
    rw [if_neg (fun hn => hn heram), if_neg (fun hn => hn hvarm), if_neg hown,
      if_neg hnc]
  refine ⟨by rw [ht], by rw [ht], ?_, ?_⟩
  · intro hnt
    simp [noImageMsg, hnt]
  · intro tp htp
    simp [noImageMsg, htp]

/-- C9 counterexample: the no-image failure carries the `internal`
error code — the same code the spec reserves for Internal — so the
`GenerationFailed` kind is not distinct from Internal at the error-code
level; it is distinguished only by the message text. -/
theorem renderEra_generation_failed_cex :
    (renderEra envNoImg reqW).result =
      .error ⟨.internal, "Generation failed: cannot comply"⟩ ∧
    (renderEra envNoImg reqW).modelCalled = true :=
  ⟨by decide, by decide⟩

/-- C9 witness: the amended statement at the concrete environment. -/
theorem renderEra_generation_failed_witness :
    (renderEra envNoImg reqW).result =
      .error ⟨.internal, "Generation failed: " ++ noImageMsg envNoImg.modelParts⟩ ∧
    (renderEra envNoImg reqW).modelCalled = true ∧
    (envNoImg.modelParts.find? (fun p => hasText p) = none →
      noImageMsg envNoImg.modelParts = "No image returned by model") ∧
    (∀ tp, envNoImg.modelParts.find? (fun p => hasText p) = some tp →
      noImageMsg envNoImg.modelParts = tp.text.getD "") :=
  renderEra_generation_failed envNoImg reqW "alice" "s1" "1920" "mild"
    "gs://b/scenes/s1/original.jpg" "scenes/s1/original.jpg" sW
    ⟨some 4, some "2026-10-11"⟩
    rfl (by decide) rfl (by decide) rfl (by decide) rfl (by decide)
    rfl rfl rfl (by decide) rfl (by decide) rfl rfl

/-! ### Access control (C8) -/

/-- C8: for a requester who does not own the scene, render and publish
both fail `permission-denied` no matter what the public flag says,
while the read-access check of the serving endpoints succeeds for that
requester — or an anonymous one — exactly when the public flag is set. -/
theorem access_control_checks (env : RenderEnv) (req : RenderReq)
    (uid sid e v : String) (s : Scene)
    (hauth : req.authUid = some uid) (huid : uid ≠ "")
    (hsid : req.sceneId = some sid) (hsidb : isBlank sid = false)
    (hera : req.era = some e) (heram : e ∈ ERAS)
    (hvar : req.variant = some v) (hvarm : v ∈ VARIANTS)
    (hscene : env.scenes sid = some s) (hnotowner : s.ownerUid ≠ uid) :
    (renderEra env req).result =
      .error ⟨.permissionDenied, "You do not own this scene"⟩ ∧
    publishScene env req =
      .error ⟨.permissionDenied, "You do not own this scene"⟩ ∧
    (∀ ruid : Option String, (∀ u, ruid = some u → u ≠ s.ownerUid) →
      (assertAccess s ruid = .ok () ↔ s.isPublic = true)) := by
  have hA : assertAuth req.authUid = some uid := by
    simp [assertAuth, truthy, hauth, huid]
  have hS : validStr req.sceneId = some sid := by simp [validStr, hsid, hsidb]
  have hE : validStr req.era = some e := by rw [hera]; exact mem_ERAS_valid e heram
  have hV : validStr req.variant = some v := by rw [hvar]; exact mem_VARIANTS_valid v hvarm
  refine ⟨?_, ?_, ?_⟩
  · have ht : renderEra env req =
        errTrace env ⟨.permissionDenied, "You do not own this scene"⟩ := by
      simp only [renderEra, hA, hS, hE, hV, hscene]
      rw [if_neg (fun hn => hn heram), if_neg (fun hn => hn hvarm),
        if_pos (Or.inr hnotowner)]
    rw [ht]
    rfl
  · simp only [publishScene, hA, hS, hscene]
    rw [if_pos (Or.inr hnotowner)]
  · intro ruid hru
    have hcase : truthy ruid = none ∨
        ∃ u, truthy ruid = some u ∧ s.ownerUid ≠ u := by
      cases ruid with
      | none => exact Or.inl rfl
      | some u =>
        by_cases hu : u = ""
        · exact Or.inl (by simp [truthy, hu])
        · exact Or.inr ⟨u, by simp [truthy, hu], fun h => hru u rfl h.symm⟩
    rcases hcase with h | ⟨u, hu, hne⟩
    · cases hp : s.isPublic <;> simp [assertAccess, h, hp]
    · cases hp : s.isPublic <;> simp [assertAccess, hu, hne, hp]

/-- C8 witness: bob cannot render or publish alice's non-public scene,
and the read-access check for bob matches the public flag. -/
theorem access_control_checks_witness :
    (renderEra envW { reqW with authUid := some "bob" }).result =
      .error ⟨.permissionDenied, "You do not own this scene"⟩ ∧
    publishScene envW { reqW with authUid := some "bob" } =
      .error ⟨.permissionDenied, "You do not own this scene"⟩ ∧
    (assertAccess sW (some "bob") = .ok () ↔ sW.isPublic = true) := by
  have h := access_control_checks envW { reqW with authUid := some "bob" }
    "bob" "s1" "1920" "mild" sW
    rfl (by decide) rfl (by decide) rfl (by decide) rfl (by decide)
    rfl (by decide)
  exact ⟨h.1, h.2.1,
    h.2.2 (some "bob") (fun u hu => by injection hu with h2; subst h2; decide)⟩

/-! ### Publish cover selection (C7) and listing defaults (C10) -/

/-- The cover loop picks the first era with any output. -/
lemma coverFor_first (outputs : String → List OutputRecord)
    (pre : List String) (e : String) (post : List String)
    (a : OutputRecord) (tl : List OutputRecord)
    (hpre : ∀ x ∈ pre, outputs x = []) (he : outputs e = a :: tl) :
    coverFor outputs (pre ++ e :: post) =
      some (match (a :: tl).find? (fun x => x.variant = "balanced") with
            | some b => b.gsUri
            | none => a.gsUri) := by
  induction pre with
  | nil => simp [coverFor, he]
  | cons x xs ih =>
    have hx : outputs x = [] := hpre x (by simp)
    simp only [List.cons_append, coverFor, hx]
    exact ih (fun y hy => hpre y (by simp [hy]))

/-- The cover loop finds nothing when every era's list is empty. -/
lemma coverFor_none (outputs : String → List OutputRecord) (l : List String)
    (h : ∀ x ∈ l, outputs x = []) : coverFor outputs l = none := by
  induction l with
  | nil => rfl
  | cons x xs ih =>
    simp only [coverFor, h x (by simp)]
    exact ih (fun y hy => h y (by simp [hy]))

/-- Evaluation of `publishScene` past the authentication, validation and
ownership checks. -/
lemma publishScene_eval (env : RenderEnv) (req : RenderReq)
    (uid sid : String) (s : Scene)
    (hauth : req.authUid = some uid) (huid : uid ≠ "")
    (hsid : req.sceneId = some sid) (hsidb : isBlank sid = false)
    (hscene : env.scenes sid = some s) (howner : s.ownerUid = uid) :
    publishScene env req =
      match (match truthy (coverFor s.outputs (effEras s)) with
             | some u => some u
             | none => truthy s.original) with
      | none => .error ⟨.failedPrecondition, "No image available to publish"⟩
      | some cover =>
        match gsPathFromUri cover with
        | none => .error ⟨.internal, "Error"⟩
        | some srcPath =>
          if env.storageExists srcPath = false then .error ⟨.internal, "Error"⟩
          else
            .ok ("p_" ++ sid.take 6 ++ "_" ++ env.rand,
              ⟨sid, cover,
               match effEras s with
               | [] => "1920"
               | h :: _ => if h = "" then "1920" else h, 0⟩) := by
  have hA : assertAuth req.authUid = some uid := by
    simp [assertAuth, truthy, hauth, huid]
  have hS : validStr req.sceneId = some sid := by simp [validStr, hsid, hsidb]
  have hown : ¬(s.ownerUid = "" ∨ s.ownerUid ≠ uid) := by
    rw [howner]
    push_neg
    exact ⟨huid, rfl⟩
  simp only [publishScene, hA, hS, hscene]
  rw [if_neg hown]

/-- C7: publish scans the scene's configured era list in order, prefers
the `balanced` variant within the first era that has any output (else
that era's first record), falls back to the original image when no era
has output — publishing succeeds with the original as the cover — and
fails `failed-precondition` when neither exists; in particular outputs
present only for a later era make that era's balanced-or-first record
the cover. -/
theorem publish_cover_selection (env : RenderEnv) (req : RenderReq)
    (uid sid : String) (s : Scene)
    (hauth : req.authUid = some uid) (huid : uid ≠ "")
    (hsid : req.sceneId = some sid) (hsidb : isBlank sid = false)
    (hscene : env.scenes sid = some s) (howner : s.ownerUid = uid) :
    (∀ pre e post a tl, effEras s = pre ++ e :: post →
      (∀ x ∈ pre, s.outputs x = []) → s.outputs e = a :: tl →
      coverFor s.outputs (effEras s) =
        some (match (a :: tl).find? (fun x => x.variant = "balanced") with
              | some b => b.gsUri
              | none => a.gsUri)) ∧
    ((∀ x ∈ effEras s, s.outputs x = []) →
      coverFor s.outputs (effEras s) = none) ∧
    ((∀ x ∈ effEras s, s.outputs x = []) → truthy s.original = none →
      publishScene env req =
        .error ⟨.failedPrecondition, "No image available to publish"⟩) ∧
    ((∀ x ∈ effEras s, s.outputs x = []) →
      ∀ u p, truthy s.original = some u →
      gsPathFromUri u = some p → env.storageExists p = true →
      ∃ pid lst, publishScene env req = .ok (pid, lst) ∧ lst.coverRef = u) ∧
    (∀ u p, coverFor s.outputs (effEras s) = some u → u ≠ "" →
      gsPathFromUri u = some p → env.storageExists p = true →
      ∃ pid lst, publishScene env req = .ok (pid, lst) ∧ lst.coverRef = u) := by
  have hev := publishScene_eval env req uid sid s hauth huid hsid hsidb hscene howner
  refine ⟨?_, ?_, ?_, ?_, ?_⟩
  · intro pre e post a tl heq hpre he
    rw [heq]
    exact coverFor_first s.outputs pre e post a tl hpre he
  · intro hall
    exact coverFor_none s.outputs (effEras s) hall
  · intro hall hno
    rw [hev, coverFor_none s.outputs (effEras s) hall]
    simp only [show truthy none = none from rfl, hno]
  · intro hall u p horig hgs hex
    have hres : publishScene env req =
        .ok ("p_" ++ sid.take 6 ++ "_" ++ env.rand,
          ⟨sid, u,
           (match effEras s with
            | [] => "1920"
            | h :: _ => if h = "" then "1920" else h), 0⟩) := by
      rw [hev, coverFor_none s.outputs (effEras s) hall]
      simp only [show truthy none = none from rfl, horig]
      simp [hgs, hex]
    exact ⟨_, _, hres, rfl⟩
  · intro u p hcv hne hgs hex
    have htr : truthy (some u) = some u := by simp [truthy, hne]
    have hres : publishScene env req =
        .ok ("p_" ++ sid.take 6 ++ "_" ++ env.rand,
          ⟨sid, u,
           (match effEras s with
            | [] => "1920"
            | h :: _ => if h = "" then "1920" else h), 0⟩) := by
      rw [hev, hcv]
      simp [htr, hgs, hex]
    exact ⟨_, _, hres, rfl⟩

/-- C7 witness: with outputs only under era 1970, the 1970 balanced
record is chosen as the cover and publish succeeds with it; with no
outputs at all but an original attached, publish succeeds with the
original image as the cover. -/
theorem publish_cover_selection_witness :
    coverFor sLate.outputs (effEras sLate) =
      some "gs://b/scenes/s1/renders/1970/balanced.jpg" ∧
    (∃ pid lst, publishScene envLate reqW = .ok (pid, lst) ∧
      lst.coverRef = "gs://b/scenes/s1/renders/1970/balanced.jpg") ∧
    (∃ pid lst, publishScene envNoOut reqW = .ok (pid, lst) ∧
      lst.coverRef = "gs://b/scenes/s1/original.jpg") := by
  have h := publish_cover_selection envLate reqW "alice" "s1" sLate
    rfl (by decide) rfl (by decide) rfl rfl
  have h2 := publish_cover_selection envNoOut reqW "alice" "s1" sNoOut
    rfl (by decide) rfl (by decide) rfl rfl
  refine ⟨?_, ?_, ?_⟩
  · exact (h.1 ["1920"] "1970" [] wBal [] (by decide) (by decide) (by decide)).trans
      (by decide)
  · exact h.2.2.2.2 "gs://b/scenes/s1/renders/1970/balanced.jpg"
      "scenes/s1/renders/1970/balanced.jpg" (by decide) (by decide) (by decide) rfl
  · exact h2.2.2.2.1 (by decide) "gs://b/scenes/s1/original.jpg"
      "scenes/s1/original.jpg" (by decide) (by decide) rfl

/-- C10: a successful publish creates the listing with `eraDefault`
equal to the first entry of the scene's configured era list — `"1890"`,
the first era of the full supported set, when that list is unset or
empty — independent of which era supplied the cover, and with
`viewCount` zero. -/
theorem publish_listing_defaults (env : RenderEnv) (req : RenderReq)
    (uid sid : String) (s : Scene) (pid : String) (lst : Listing)
    (hauth : req.authUid = some uid) (huid : uid ≠ "")
    (hsid : req.sceneId = some sid) (hsidb : isBlank sid = false)
    (hscene : env.scenes sid = some s) (howner : s.ownerUid = uid)
    (heras : ∀ x ∈ s.eras, x ∈ ERAS)
    (hok : publishScene env req = .ok (pid, lst)) :
    lst.eraDefault = (match s.eras with | [] => "1890" | h :: _ => h) ∧
    lst.viewCount = 0 ∧
    lst.sceneId = sid := by
  have hev := publishScene_eval env req uid sid s hauth huid hsid hsidb hscene howner
  rw [hev] at hok
  have hdefault :
      (match effEras s with
       | [] => "1920"
       | h :: _ => if h = "" then "1920" else h) =
      (match s.eras with | [] => "1890" | h :: _ => h) := by
    cases hse : s.eras with
    | nil =>
      have : effEras s = ERAS := by simp [effEras, hse]
      rw [this]
      rfl
    | cons h t =>
      have he : effEras s = h :: t := by simp [effEras, hse]
      have hm : h ∈ ERAS := heras h (by rw [hse]; exact List.mem_cons_self h t)
      have hne : h ≠ "" := by
        intro hc
        rw [hc] at hm
        revert hm
        decide
      rw [he]
      simp [hne]
  split at hok
  · exact absurd hok (by simp)
  · split at hok
    · exact absurd hok (by simp)
    · split at hok
      · exact absurd hok (by simp)
      · have h1 := (Except.ok.injEq _ _).mp hok
        have h2 := (Prod.mk.injEq _ _ _ _).mp h1
        rw [← h2.2]
        exact ⟨hdefault, rfl, rfl⟩

/-- C10 witness: publishing the later-era scene yields a listing whose
default era label is `1920` — the first configured era — although the
cover came from era 1970, and whose view count is zero. -/
theorem publish_listing_defaults_witness :
    (⟨"s1", "gs://b/scenes/s1/renders/1970/balanced.jpg", "1920", 0⟩ : Listing).eraDefault =
      (match sLate.eras with | [] => "1890" | h :: _ => h) ∧
    (⟨"s1", "gs://b/scenes/s1/renders/1970/balanced.jpg", "1920", 0⟩ : Listing).viewCount = 0 ∧
    (⟨"s1", "gs://b/scenes/s1/renders/1970/balanced.jpg", "1920", 0⟩ : Listing).sceneId = "s1" :=
  publish_listing_defaults envLate reqW "alice" "s1" sLate "p_s1_abc123"
    ⟨"s1", "gs://b/scenes/s1/renders/1970/balanced.jpg", "1920", 0⟩
    rfl (by decide) rfl (by decide) rfl rfl (by decide) (by decide)

end Chronolens
